import Mathlib

/-!
Verification of `build_resume_data.py` (résumé workbook → JSON converter).

This file shallowly embeds the Python source in Lean 4:

* a spreadsheet cell (`Cell`) is missing (pandas NaN), a string, an integer,
  a float, or a boolean; Python floats are modelled exactly as rationals
  extended with `nan`, `inf`, `-inf` (`PyFloat`) — IEEE rounding, overflow to
  infinity and the 17-significant-digit `repr` shortening do not occur for the
  workbook-sized numbers this program handles, so the rational model agrees
  with CPython on them;
* `str.lower` / `str.strip` are modelled character-wise on ASCII
  (`pyLower` / `pyStrip`);
* the built-in `float(...)` string parser is modelled by `parsePyFloat`
  (sign, decimal digits, optional point and exponent, `inf`/`infinity`/`nan`
  keywords, surrounding whitespace; PEP-515 underscore separators and
  non-ASCII digits are outside the model);
* each Python function of the source keeps its name (`_clean_value`,
  `_coerce_year`, `_span`, `parse_text_blocks`, `parse_entries`,
  `parse_skills`, `parse_languages`, `parse_contact`, `build_payload`).

All definitions are executable; the claim theorems follow the definitions.
-/

/-- Python float value: a finite rational, or one of the non-finite values
`nan`, `inf`, `-inf`. -/
inductive PyFloat where
  | fin (q : ℚ)
  | nan
  | inf
  | ninf
deriving DecidableEq, Repr

/-- True exactly on finite floats. -/
def PyFloat.isFinite : PyFloat → Bool
  | .fin _ => true
  | _ => false

/-- Result of `_coerce_year`: a Python `int` or a Python `float`. -/
inductive PyNum where
  | int (n : ℤ)
  | float (f : PyFloat)
deriving DecidableEq, Repr

/-- A raw spreadsheet cell as pandas delivers it: missing (NaN), a string,
an integer, a float, or a boolean. -/
inductive Cell where
  | na
  | str (s : String)
  | int (n : ℤ)
  | float (f : PyFloat)
  | bool (b : Bool)
deriving DecidableEq, Repr

/-- ASCII decimal digit test, modelling the digits accepted by CPython
`float(...)` (`c in "0123456789"`). -/
def isDigitCh (c : Char) : Bool :=
  c ∈ ['0', '1', '2', '3', '4', '5', '6', '7', '8', '9']

/-- ASCII whitespace stripped by Python `str.strip()` (and by `float(...)`). -/
def isPySpace (c : Char) : Bool :=
  c ∈ [' ', '\t', '\n', '\r', '\x0b', '\x0c']

/-- Characters that can occur in the `str` form of a Python number
(digits, sign, point, and the letters of `nan` and `inf`); used by the
proofs below to show numeric strings survive `lower()` and never spell
`current`. -/
def numCh (c : Char) : Bool :=
  isDigitCh c || c ∈ ['-', '.', 'n', 'a', 'i', 'f']

/-- Drop leading and trailing whitespace from a character list
(Python `str.strip()`). -/
def trimChars (l : List Char) : List Char :=
  ((l.dropWhile isPySpace).reverse.dropWhile isPySpace).reverse

/-- Python `str.strip()`. -/
def pyStrip (s : String) : String :=
  ⟨trimChars s.data⟩

/-- Python `str.lower()` (ASCII case folding, character-wise). -/
def pyLower (s : String) : String :=
  ⟨s.data.map Char.toLower⟩

/-- Decide whether `sub` occurs contiguously inside `hay`. -/
def infixOf (sub hay : List Char) : Bool :=
  match hay with
  | [] => sub.isEmpty
  | _ :: t => sub.isPrefixOf hay || infixOf sub t

/-- Python `sub in hay` substring test. -/
def containsSub (hay sub : String) : Bool :=
  infixOf sub.data hay.data

/-- Decimal digits of `n`, most significant first, consed onto `acc`;
`fuel` bounds the recursion (any `fuel ≥ n + 1` is enough). -/
def natStrAux : Nat → Nat → List Char → List Char
  | 0, _, acc => acc
  | f + 1, n, acc =>
    if n < 10 then Nat.digitChar n :: acc
    else natStrAux f (n / 10) (Nat.digitChar (n % 10) :: acc)

/-- Python `str` of a natural number (plain decimal). -/
def natStr (n : Nat) : String :=
  ⟨natStrAux (n + 1) n []⟩

/-- Python `str` of an `int` (decimal, `-` sign when negative). -/
def intStr (n : ℤ) : String :=
  if n < 0 then "-" ++ natStr n.natAbs else natStr n.toNat

/-- Decimal digits of the fractional part of `num / den`, `fuel` bounding the
expansion (the program only reaches terminating expansions). -/
def fracChars : Nat → Nat → Nat → List Char
  | 0, _, _ => []
  | _ + 1, 0, _ => []
  | f + 1, r, den => Nat.digitChar (r * 10 / den) :: fracChars f (r * 10 % den) den

/-- Python `str` of a finite non-integer float, from its exact rational value
(sign, integer part, point, fractional digits). For the terminating decimals
this program produces, it agrees with CPython `repr`. -/
def ratStr (q : ℚ) : String :=
  let sign := if q < 0 then "-" else ""
  let n := q.num.natAbs
  let ipart := n / q.den
  let r := n % q.den
  sign ++ natStr ipart ++ "." ++ ⟨fracChars 64 r q.den⟩

/-- Python `str` of a float value. -/
def pyFloatStr : PyFloat → String
  | .fin q => if q.den = 1 then intStr q.num ++ ".0" else ratStr q
  | .nan => "nan"
  | .inf => "inf"
  | .ninf => "-inf"

/-- Python `str` of an `int`-or-`float` value. -/
def pyNumStr : PyNum → String
  | .int n => intStr n
  | .float f => pyFloatStr f

/-- Value of a list of decimal digit characters. -/
def digitsVal (ds : List Char) : Nat :=
  ds.foldl (fun a c => a * 10 + (c.toNat - 48)) 0

/-- Exact value of a parsed decimal literal: integer digits `ip`, fraction
digits `fp`, decimal exponent `ex`, sign `neg`. The value is
`±digits(ip ++ fp) · 10 ^ (ex - |fp|)`, built with `mkRat` so that it is
kernel-reducible. -/
def decVal (neg : Bool) (ip fp : List Char) (ex : ℤ) : ℚ :=
  let base : ℤ := (digitsVal (ip ++ fp) : ℤ)
  let sbase := if neg then -base else base
  let e : ℤ := ex - (fp.length : ℤ)
  if 0 ≤ e then mkRat (sbase * ((10 : ℕ) ^ e.toNat : ℕ)) 1
  else mkRat sbase ((10 : ℕ) ^ (-e).toNat)

/-- Parse the unsigned decimal part of a float literal
(`digits [. digits] [e|E [+|-] digits]`, at least one mantissa digit). -/
def parseDecimal (cs : List Char) (neg : Bool) : Option PyFloat :=
  let ip := cs.takeWhile isDigitCh
  let r1 := cs.dropWhile isDigitCh
  let fr : List Char × List Char :=
    match r1 with
    | c :: rest =>
      if c = '.' then (rest.takeWhile isDigitCh, rest.dropWhile isDigitCh) else ([], r1)
    | [] => ([], r1)
  let fp := fr.1
  let r2 := fr.2
  if ip.isEmpty && fp.isEmpty then none
  else
    match r2 with
    | [] => some (.fin (decVal neg ip fp 0))
    | c :: rest =>
      if c = 'e' ∨ c = 'E' then
        let sd : Bool × List Char :=
          match rest with
          | '+' :: ds => (false, ds)
          | '-' :: ds => (true, ds)
          | ds => (false, ds)
        if sd.2 ≠ [] ∧ sd.2.all isDigitCh then
          some (.fin (decVal neg ip fp
            (if sd.1 then -(digitsVal sd.2 : ℤ) else (digitsVal sd.2 : ℤ))))
        else none
      else none

/-- Parse the body of a float literal after the optional sign: the keywords
`inf`, `infinity`, `nan` (case-insensitive) or a decimal literal. -/
def parseBody (cs : List Char) (neg : Bool) : Option PyFloat :=
  let low := cs.map Char.toLower
  if low = "inf".data ∨ low = "infinity".data then some (if neg then .ninf else .inf)
  else if low = "nan".data then some .nan
  else parseDecimal cs neg

/-- Strip the optional leading sign of a float literal. -/
def parseSigned : List Char → Option PyFloat
  | [] => none
  | c :: rest =>
    if c = '+' then parseBody rest false
    else if c = '-' then parseBody rest true
    else parseBody (c :: rest) false

/-- CPython `float(s)` on a string: `none` models a raised `ValueError`. -/
def parsePyFloat (s : String) : Option PyFloat :=
  parseSigned (trimChars s.data)

/-- CPython `float(val)` on a raw cell value: `none` models a raised
`ValueError`/`TypeError`. A missing cell is the float `nan`, so `float` on it
succeeds and returns `nan`. -/
def pyFloatOfCell : Cell → Option PyFloat
  | .na => some .nan
  | .str s => parsePyFloat s
  | .int n => some (.fin (n : ℚ))
  | .float f => some f
  | .bool b => some (.fin (if b then 1 else 0))

/-- Line 15, `_clean_value`: `""` for a missing value, otherwise
`str(val).strip()`. The `str` forms of non-string cells carry no surrounding
whitespace, so `strip` is a no-op folded into those branches. -/
def _clean_value : Cell → String
  | .na => ""
  | .float .nan => ""
  | .str s => pyStrip s
  | .int n => intStr n
  | .float f => pyFloatStr f
  | .bool b => if b then "True" else "False"

/-- Collapse a float to the Python value `int(num) if num.is_integer() else
num` (`is_integer` is false on `nan` and the infinities). -/
def numOfFloat : PyFloat → PyNum
  | .fin q => if q.den = 1 then .int q.num else .float (.fin q)
  | f => .float f

/-- Line 22, `_coerce_year`: `None` for a blank string, otherwise
`float(val)` collapsed to `int` when whole; any conversion error yields
`None`. -/
def _coerce_year : Cell → Option PyNum
  | .str s => if pyStrip s = "" then none else (parsePyFloat s).map numOfFloat
  | .na => some (numOfFloat .nan)
  | .int n => some (numOfFloat (.fin (n : ℚ)))
  | .float f => some (numOfFloat f)
  | .bool b => some (numOfFloat (.fin (if b then 1 else 0)))

/-- Python `>` on float values (`nan` compares false against everything). -/
def PyFloat.gtF : PyFloat → PyFloat → Bool
  | .nan, _ => false
  | _, .nan => false
  | .inf, .inf => false
  | .inf, _ => true
  | _, .inf => false
  | .ninf, _ => false
  | .fin _, .ninf => true
  | .fin a, .fin b => decide (b < a)

/-- Numeric view of a `PyNum` for comparison (Python compares `int` and
`float` by exact value). -/
def PyNum.toF : PyNum → PyFloat
  | .int n => .fin (n : ℚ)
  | .float f => f

/-- Python `s_num > e_num` on coerced years. -/
def pyGt (a b : PyNum) : Bool :=
  PyFloat.gtF a.toF b.toF

/-- Lines 39–45 of `_span`: format the display pair after the swap step. -/
def spanFormat (s e : String) : String :=
  if s = "" ∧ e = "" then ""
  else if pyLower e = "current" then (if s = "" then "current" else s ++ " – current")
  else if s ≠ "" ∧ e ≠ "" then s ++ " – " ++ e
  else if s = "" then e else s

/-- Line 32, `_span`: clean both values, coerce both to numeric years, swap
to ascending order when both coerce and start > end (the display pair then
becomes the `str` forms of the swapped numbers), then format. -/
def _span (start end_ : Cell) : String :=
  let p : String × String :=
    match _coerce_year start, _coerce_year end_ with
    | some a, some b =>
      if pyGt a b then (pyNumStr b, pyNumStr a) else (_clean_value start, _clean_value end_)
    | _, _ => (_clean_value start, _clean_value end_)
  spanFormat p.1 p.2

/-- A pandas sheet: ordered column labels and ordered rows of cells (each row
aligned positionally with the labels). -/
structure DataFrame where
  columns : List String
  rows : List (List Cell)
deriving DecidableEq, Repr

/-- Positional cell access `row.iloc[i]`; out-of-range reads are modelled as a
missing cell (well-formed frames never read out of range). -/
def cellAt (row : List Cell) (i : Nat) : Cell :=
  row.getD i Cell.na

/-- Label-based cell access `row.get(label)`. A missing label gives Python
`None`, which `_clean_value` sends to `""` and numeric coercion rejects; the
missing-cell marker behaves identically in every use below, so it models the
`None` case. -/
def rowGet (cols : List String) (row : List Cell) (label : String) : Cell :=
  match cols.indexOf? label with
  | some i => cellAt row i
  | none => Cell.na

/-- One résumé entry record (`section` is a Lean keyword, hence `sec`). -/
structure Entry where
  sec : String
  title : String
  location : String
  org : String
  span : String
  bullets : List String
deriving DecidableEq, Repr

/-- One skill or language record. The level is the raw `float(...)` result. -/
structure RatedItem where
  name : String
  level : PyFloat
deriving DecidableEq, Repr

/-- One contact record. -/
structure Contact where
  id : String
  icon : String
  value : String
deriving DecidableEq, Repr

/-- Insertion into a Python dict modelled as an ordered association list:
an existing key is updated in place, a new key is appended. -/
def dictInsert (d : List (String × String)) (k v : String) : List (String × String) :=
  if d.any (fun p => p.1 == k) then d.map (fun p => if p.1 == k then (k, v) else p)
  else d ++ [(k, v)]

/-- Lookup in the dict model. -/
def dictGet (d : List (String × String)) (k : String) : Option String :=
  (d.find? (fun p => p.1 == k)).map (fun p => p.2)

/-- Loop body of lines 50–54: clean key and value of one row; a row whose key
is empty or is the header label is skipped, the rest update the dict. -/
def tbStep (blocks : List (String × String)) (row : List Cell) : List (String × String) :=
  let key := _clean_value (cellAt row 0)
  let val := _clean_value (cellAt row 1)
  if key ≠ "" ∧ pyLower key ≠ "id used for finding text block" then
    dictInsert blocks key val
  else blocks

/-- Line 48, `parse_text_blocks`: fold the row loop over the sheet. -/
def parse_text_blocks (df : DataFrame) : List (String × String) :=
  df.rows.foldl tbStep []

/-- Column classification predicate of line 63: the label contains
`description` case-insensitively. -/
def isDescLabel (c : String) : Bool :=
  containsSub (pyLower c) "description"

/-- Lines 63–67: the description columns — first every column whose label
contains `description`, then (in the loop over `enumerate`) every column of
index at least 6 not already collected. -/
def descCols (cols : List String) : List String :=
  cols.enum.foldl
    (fun acc p =>
      if 6 ≤ p.1 then (if p.2 ∈ acc then acc else acc ++ [p.2]) else acc)
    (cols.filter isDescLabel)

/-- Stated from the spec's words, for comparison with the code: description
columns taken in the order their columns appear in the source sheet — the
positional order of all columns classified as description columns (label
contains `description` case-insensitively, or index at least 6). -/
def descColsSheetOrder (cols : List String) : List String :=
  (cols.enum.filter (fun p => isDescLabel p.2 || decide (6 ≤ p.1))).map (fun p => p.2)

/-- Filter/helper column test of line 81: the lowered label contains
`filter`, `resume` or `in_resume`. -/
def isFilterLabel (c : String) : Bool :=
  containsSub (pyLower c) "filter" || containsSub (pyLower c) "resume" ||
    containsSub (pyLower c) "in_resume"

/-- Lines 77–88: bullets of one row — iterate the description columns, skip
filter/helper columns, clean the cell, skip empty values and the literal
booleans `true`/`false`. -/
def bulletsOf (cols : List String) (dcols : List String) (row : List Cell) : List String :=
  dcols.filterMap
    (fun c =>
      if isFilterLabel c then none
      else
        let val := _clean_value (rowGet cols row c)
        if val = "" then none
        else if pyLower val = "true" ∨ pyLower val = "false" then none
        else some val)

/-- Lines 69–96: one row of the entries sheet — skip rows whose section is
empty, repeats the first data row's first cell, or is the literal `section`;
otherwise build the entry record. -/
def entryOf (cols : List String) (hv : String) (dcols : List String)
    (row : List Cell) : Option Entry :=
  let sec := _clean_value (cellAt row 0)
  if sec = "" ∨ pyLower sec = hv ∨ pyLower sec = "section" then none
  else
    some
      ⟨sec,
        _clean_value (rowGet cols row "Main title of the entry"),
        _clean_value (rowGet cols row "Location the entry occured"),
        _clean_value (rowGet cols row "Primary institution affiliation for entry"),
        _span (rowGet cols row "Start date of entry (year)")
          (rowGet cols row "End year of entry. Set to \"current\" if entry is still ongoing."),
        bulletsOf cols dcols row⟩

/-- Line 58, `parse_entries`: empty frame gives no entries; otherwise capture
`header_val` from the first data row and the description columns once, then
process every row (the first included) with `entryOf`. -/
def parse_entries (df : DataFrame) : List Entry :=
  match df.rows with
  | [] => []
  | r0 :: _ =>
    df.rows.filterMap
      (entryOf df.columns (pyLower (_clean_value (cellAt r0 0))) (descCols df.columns))

/-- Skill/language row: skip empty or header-labelled names, drop the row if
`float(level)` raises, otherwise emit the record. -/
def ratedOf (row : List Cell) : Option RatedItem :=
  let name := _clean_value (cellAt row 0)
  if name = "" ∨ pyLower name = "skill" ∨ pyLower name = "name of language" then none
  else
    match pyFloatOfCell (cellAt row 1) with
    | none => none
    | some level => some ⟨name, level⟩

/-- Line 100, `parse_skills`. -/
def parse_skills (df : DataFrame) : List RatedItem :=
  df.rows.filterMap ratedOf

/-- Line 115, `parse_languages` (same body as `parse_skills` in the source). -/
def parse_languages (df : DataFrame) : List RatedItem :=
  df.rows.filterMap ratedOf

/-- Lines 132–144: one contact row — skip empty or header ids, skip the stray
header-like row whose icon is `icon` and value is `contact` (case-insensitive),
otherwise emit the record. -/
def contactOf (row : List Cell) : Option Contact :=
  let id_val := _clean_value (cellAt row 0)
  let icon := _clean_value (cellAt row 1)
  let value := _clean_value (cellAt row 2)
  if id_val = "" ∨ pyLower id_val = "id of contact section" then none
  else if pyLower icon = "icon" ∧ pyLower value = "contact" then none
  else some ⟨id_val, icon, value⟩

/-- Line 130, `parse_contact`. -/
def parse_contact (df : DataFrame) : List Contact :=
  df.rows.filterMap contactOf

/-- A workbook: named sheets in order (`pd.ExcelFile`). -/
def Workbook := List (String × DataFrame)

/-- Sheet names of a workbook (`xls.sheet_names`). -/
def sheetNames (wb : Workbook) : List String :=
  wb.map (fun p => p.1)

/-- Fetch a sheet by name (`xls.parse(name)`; only called on present names). -/
def getSheet (wb : Workbook) (name : String) : DataFrame :=
  ((wb.find? (fun p => p.1 == name)).map (fun p => p.2)).getD ⟨[], []⟩

/-- Line 153: the five required sheet names. -/
def requiredSheets : List String :=
  ["text_blocks", "entries", "computer_science_skills", "languages", "contact_info"]

/-- Python `", ".join(l)`. -/
def joinComma : List String → String
  | [] => ""
  | [a] => a
  | a :: b :: rest => a ++ ", " ++ joinComma (b :: rest)

/-- Line 160: the required sheets absent from the workbook, in required
order. -/
def missingOf (wb : Workbook) : List String :=
  requiredSheets.filter (fun n => !(sheetNames wb).contains n)

/-- The assembled output document. `generated_at` and `workbook` carry the
ambient timestamp and source file name, which `build_payload` receives as
arguments (`datetime.utcnow()` and the workbook path are environment inputs). -/
structure Payload where
  text_blocks : List (String × String)
  entries : List Entry
  skills : List RatedItem
  languages : List RatedItem
  contact_info : List Contact
  generated_at : String
  workbook : String
deriving DecidableEq, Repr

/-- Line 148, `build_payload`, from the opened workbook on: verify the five
required sheets all exist, failing with one error naming every missing sheet;
then parse each sheet and assemble the payload. The `FileNotFoundError` branch
is filesystem plumbing outside the model. -/
def build_payload (wb : Workbook) (now wbName : String) : Except String Payload :=
  match missingOf wb with
  | [] =>
    .ok
      ⟨parse_text_blocks (getSheet wb "text_blocks"),
        parse_entries (getSheet wb "entries"),
        parse_skills (getSheet wb "computer_science_skills"),
        parse_languages (getSheet wb "languages"),
        parse_contact (getSheet wb "contact_info"),
        now ++ "Z", wbName⟩
  | _ => .error ("Missing sheets: " ++ joinComma (missingOf wb))

example : parsePyFloat "2020" = some (.fin (mkRat 2020 1)) := by decide
example : parsePyFloat "2020.5" = some (.fin (mkRat 4041 2)) := by decide
example : parsePyFloat "N/A" = none := by decide
example : parsePyFloat " -1.5e2 " = some (.fin (mkRat (-150) 1)) := by decide
example : parsePyFloat "inf" = some .inf := by decide
example : _coerce_year (.str "2020") = some (.int 2020) := by decide
example : _coerce_year (.str "") = none := by decide
example : _span (.int 2020) (.int 2018) = "2018 – 2020" := by decide
example : _span (.int 2018) (.int 2020) = "2018 – 2020" := by decide
example : _span (.str "2019") (.str "current") = "2019 – current" := by decide
example : _span (.str "") (.str "current") = "current" := by decide
example : _span (.str "") (.str "") = "" := by decide
example : _span (.str "2019") (.na) = "2019" := by decide
example :
    parse_skills ⟨["Skill", "Level"], [[.str "A", .str "n/a"], [.str "B", .str "4.5"]]⟩ =
      [⟨"B", .fin (mkRat 9 2)⟩] := by decide
example :
    parse_skills ⟨["Skill", "Level"], [[.str "Python", Cell.na]]⟩ =
      [⟨"Python", PyFloat.nan⟩] := by decide
example :
    parse_contact ⟨["id", "icon", "value"],
      [[.str "Id of contact section", .str "Icon", .str "Contact"],
       [.str "email", .str "Icon", .str "someone@example.com"],
       [.str "x", .str "ICON", .str "Contact"]]⟩ =
      [⟨"email", "Icon", "someone@example.com"⟩] := by decide
example :
    dictGet (parse_text_blocks ⟨["k", "v"],
      [[.str "summary", .str "old"], [.str "summary", .str "new"]]⟩) "summary" =
      some "new" := by decide
example :
    descCols ["a", "b", "c", "d", "e", "f", "Unnamed: 6", "My description"] =
      ["My description", "Unnamed: 6"] := by decide
example :
    build_payload [("text_blocks", ⟨[], []⟩), ("entries", ⟨[], []⟩), ("languages", ⟨[], []⟩)]
      "t" "w" = .error "Missing sheets: computer_science_skills, contact_info" := rfl

/-! ### Character and numeric-string lemmas -/

theorem toLower_eq_self_of_digit (c : Char) (h : isDigitCh c = true) :
    c.toLower = c := by
  simp only [isDigitCh, decide_eq_true_eq, List.mem_cons, List.mem_singleton,
    List.not_mem_nil, or_false] at h
  rcases h with h | h | h | h | h | h | h | h | h | h <;> subst h <;> decide

theorem toLower_eq_self_of_numCh (c : Char) (h : numCh c = true) :
    c.toLower = c := by
  simp only [numCh, Bool.or_eq_true, decide_eq_true_eq, List.mem_cons,
    List.mem_singleton, List.not_mem_nil, or_false] at h
  rcases h with h | h | h | h | h | h | h
  · exact toLower_eq_self_of_digit c h
  all_goals subst h; decide

theorem numCh_of_digit (c : Char) (h : isDigitCh c = true) : numCh c = true := by
  simp [numCh, h]

theorem isDigitCh_digitChar (m : Nat) (h : m < 10) :
    isDigitCh (Nat.digitChar m) = true := by
  interval_cases m <;> decide

theorem natStrAux_digits (f : Nat) :
    ∀ (n : Nat) (acc : List Char), (∀ c ∈ acc, isDigitCh c = true) →
      ∀ c ∈ natStrAux f n acc, isDigitCh c = true := by
  induction f with
  | zero => intro n acc hacc c hc; exact hacc c hc
  | succ f ih =>
    intro n acc hacc c hc
    simp only [natStrAux] at hc
    split at hc
    · rcases List.mem_cons.mp hc with h | h
      · subst h; exact isDigitCh_digitChar n (by omega)
      · exact hacc c h
    · refine ih (n / 10) (Nat.digitChar (n % 10) :: acc) ?_ c hc
      intro d hd
      rcases List.mem_cons.mp hd with h | h
      · subst h; exact isDigitCh_digitChar _ (Nat.mod_lt _ (by omega))
      · exact hacc d h

theorem natStr_digits (n : Nat) : ∀ c ∈ (natStr n).data, isDigitCh c = true := by
  intro c hc
  exact natStrAux_digits (n + 1) n [] (by simp) c hc

theorem natStrAux_ne_nil_of_acc (f : Nat) :
    ∀ (n : Nat) (acc : List Char), acc ≠ [] → natStrAux f n acc ≠ [] := by
  induction f with
  | zero => intro n acc h; simpa [natStrAux] using h
  | succ f ih =>
    intro n acc h
    simp only [natStrAux]
    split
    · simp
    · exact ih (n / 10) _ (by simp)

theorem natStr_ne_nil (n : Nat) : (natStr n).data ≠ [] := by
  show natStrAux (n + 1) n [] ≠ []
  simp only [natStrAux]
  split
  · simp
  · exact natStrAux_ne_nil_of_acc n (n / 10) _ (by simp)

theorem intStr_chars (n : ℤ) : ∀ c ∈ (intStr n).data, numCh c = true := by
  intro c hc
  unfold intStr at hc
  split at hc
  · rw [String.data_append] at hc
    rcases List.mem_append.mp hc with h | h
    · simp only [show ("-" : String).data = ['-'] from rfl, List.mem_singleton] at h
      subst h; decide
    · exact numCh_of_digit c (natStr_digits _ c h)
  · exact numCh_of_digit c (natStr_digits _ c hc)

theorem intStr_ne_nil (n : ℤ) : (intStr n).data ≠ [] := by
  unfold intStr
  split
  · rw [String.data_append]; simp
  · exact natStr_ne_nil _

theorem fracChars_digits (f : Nat) :
    ∀ (r den : Nat), 0 < den → r < den →
      ∀ c ∈ fracChars f r den, isDigitCh c = true := by
  induction f with
  | zero => intro r den _ _ c hc; simp [fracChars] at hc
  | succ f ih =>
    intro r den hden hr c hc
    match r, hc with
    | 0, hc => simp [fracChars] at hc
    | r + 1, hc =>
      simp only [fracChars] at hc
      rcases List.mem_cons.mp hc with h | h
      · subst h
        refine isDigitCh_digitChar _ ?_
        have : (r + 1) * 10 < den * 10 := by omega
        exact Nat.div_lt_of_lt_mul this
      · exact ih ((r + 1) * 10 % den) den hden (Nat.mod_lt _ hden) c h

theorem ratStr_chars (q : ℚ) : ∀ c ∈ (ratStr q).data, numCh c = true := by
  intro c hc
  unfold ratStr at hc
  rw [String.data_append, String.data_append, String.data_append] at hc
  rcases List.mem_append.mp hc with hc | hc
  · rcases List.mem_append.mp hc with hc | hc
    · rcases List.mem_append.mp hc with hc | hc
      · split at hc
        · simp only [show ("-" : String).data = ['-'] from rfl, List.mem_singleton] at hc
          subst hc; decide
        · simp [show ("" : String).data = [] from rfl] at hc
      · exact numCh_of_digit c (natStr_digits _ c hc)
    · simp only [show ("." : String).data = ['.'] from rfl, List.mem_singleton] at hc
      subst hc; decide
  · have hden : 0 < q.den := Nat.pos_of_ne_zero q.den_nz
    exact numCh_of_digit c
      (fracChars_digits 64 _ q.den hden (Nat.mod_lt _ hden) c hc)

theorem pyNumStr_chars (x : PyNum) : ∀ c ∈ (pyNumStr x).data, numCh c = true := by
  intro c hc
  match x with
  | .int n => exact intStr_chars n c hc
  | .float .nan =>
    simp only [pyNumStr, pyFloatStr, show ("nan" : String).data = ['n', 'a', 'n'] from rfl,
      List.mem_cons, List.mem_singleton, List.not_mem_nil, or_false] at hc
    rcases hc with h | h | h <;> subst h <;> decide
  | .float .inf =>
    simp only [pyNumStr, pyFloatStr, show ("inf" : String).data = ['i', 'n', 'f'] from rfl,
      List.mem_cons, List.mem_singleton, List.not_mem_nil, or_false] at hc
    rcases hc with h | h | h <;> subst h <;> decide
  | .float .ninf =>
    simp only [pyNumStr, pyFloatStr,
      show ("-inf" : String).data = ['-', 'i', 'n', 'f'] from rfl,
      List.mem_cons, List.mem_singleton, List.not_mem_nil, or_false] at hc
    rcases hc with h | h | h | h <;> subst h <;> decide
  | .float (.fin q) =>
    simp only [pyNumStr, pyFloatStr] at hc
    split at hc
    · rw [String.data_append] at hc
      rcases List.mem_append.mp hc with h | h
      · exact intStr_chars _ c h
      · simp only [show (".0" : String).data = ['.', '0'] from rfl, List.mem_cons,
          List.mem_singleton, List.not_mem_nil, or_false] at h
        rcases h with h | h <;> subst h <;> decide
    · exact ratStr_chars q c hc

theorem pyNumStr_ne_nil (x : PyNum) : (pyNumStr x).data ≠ [] := by
  match x with
  | .int n => exact intStr_ne_nil n
  | .float .nan => decide
  | .float .inf => decide
  | .float .ninf => decide
  | .float (.fin q) =>
    simp only [pyNumStr, pyFloatStr]
    split
    · rw [String.data_append]
      intro h
      exact intStr_ne_nil q.num (List.append_eq_nil.mp h).1
    · unfold ratStr
      rw [String.data_append, String.data_append, String.data_append]
      intro h
      have := (List.append_eq_nil.mp (List.append_eq_nil.mp
        (List.append_eq_nil.mp h).1).1).2
      exact natStr_ne_nil _ this

theorem string_eq_of_data (s t : String) (h : s.data = t.data) : s = t := by
  cases s; cases t; exact congrArg String.mk h

theorem pyNumStr_ne_empty (x : PyNum) : pyNumStr x ≠ "" := by
  intro h
  exact pyNumStr_ne_nil x (congrArg String.data h)

theorem pyLower_eq_self_of_chars (s : String) (h : ∀ c ∈ s.data, c.toLower = c) :
    pyLower s = s := by
  refine string_eq_of_data _ _ ?_
  show s.data.map Char.toLower = s.data
  calc s.data.map Char.toLower = s.data.map id := List.map_congr_left h
    _ = s.data := List.map_id s.data

theorem pyLower_pyNumStr (x : PyNum) : pyLower (pyNumStr x) = pyNumStr x :=
  pyLower_eq_self_of_chars _
    (fun c hc => toLower_eq_self_of_numCh c (pyNumStr_chars x c hc))

theorem pyNumStr_ne_current (x : PyNum) : pyNumStr x ≠ "current" := by
  intro h
  have hu : 'u' ∈ (pyNumStr x).data := by
    rw [congrArg String.data h]; decide
  have := pyNumStr_chars x 'u' hu
  simp [numCh, isDigitCh] at this

theorem pyLower_pyNumStr_ne_current (x : PyNum) :
    pyLower (pyNumStr x) ≠ "current" := by
  rw [pyLower_pyNumStr]; exact pyNumStr_ne_current x

/-! ### Parser lemmas: a string spelling `current` never parses as a float -/

theorem takeWhile_eq_nil_of_none {p : Char → Bool} (cs : List Char)
    (h : ∀ c ∈ cs, p c = false) : cs.takeWhile p = [] := by
  cases cs with
  | nil => rfl
  | cons c t => simp [List.takeWhile, h c (List.mem_cons_self c t)]

theorem dropWhile_eq_self_of_none {p : Char → Bool} (cs : List Char)
    (h : ∀ c ∈ cs, p c = false) : cs.dropWhile p = cs := by
  cases cs with
  | nil => rfl
  | cons c t => simp [List.dropWhile, h c (List.mem_cons_self c t)]

theorem parseDecimal_none_of_noDigit (cs : List Char) (neg : Bool)
    (h : ∀ c ∈ cs, isDigitCh c = false) : parseDecimal cs neg = none := by
  have ht : cs.takeWhile isDigitCh = [] := takeWhile_eq_nil_of_none cs h
  have hd : cs.dropWhile isDigitCh = cs := dropWhile_eq_self_of_none cs h
  cases cs with
  | nil => rfl
  | cons c t =>
    by_cases hc : c = '.'
    · subst hc
      have ht2 : t.takeWhile isDigitCh = [] :=
        takeWhile_eq_nil_of_none t (fun d hdm => h d (List.mem_cons_of_mem _ hdm))
      unfold parseDecimal
      simp [ht, hd, ht2]
    · unfold parseDecimal
      simp [ht, hd, hc]

theorem currentChars_noDigit (cs : List Char)
    (h : cs.map Char.toLower = ("current" : String).data) :
    ∀ c ∈ cs, isDigitCh c = false := by
  intro c hc
  by_contra hdig
  have hdig' : isDigitCh c = true := by
    cases hval : isDigitCh c
    · exact absurd hval hdig
    · rfl
  have hmem : c.toLower ∈ cs.map Char.toLower := List.mem_map_of_mem Char.toLower hc
  rw [toLower_eq_self_of_digit c hdig', h] at hmem
  have : c ∈ ['c', 'u', 'r', 'r', 'e', 'n', 't'] := hmem
  simp only [List.mem_cons, List.mem_singleton, List.not_mem_nil, or_false] at this
  rcases this with h' | h' | h' | h' | h' | h' | h' <;> subst h' <;>
    simp [isDigitCh] at hdig'

theorem parseBody_none_of_current (cs : List Char) (neg : Bool)
    (h : cs.map Char.toLower = ("current" : String).data) :
    parseBody cs neg = none := by
  unfold parseBody
  rw [h]
  have h1 : ¬(("current" : String).data = ("inf" : String).data ∨
      ("current" : String).data = ("infinity" : String).data) := by decide
  have h2 : ¬(("current" : String).data = ("nan" : String).data) := by decide
  rw [if_neg h1, if_neg h2]
  exact parseDecimal_none_of_noDigit cs neg (currentChars_noDigit cs h)

theorem parseSigned_none_of_current (t : List Char)
    (h : t.map Char.toLower = ("current" : String).data) :
    parseSigned t = none := by
  cases t with
  | nil => simp at h
  | cons c rest =>
    simp only [List.map_cons] at h
    have hc : c.toLower = 'c' := by
      have := congrArg (fun l => l.headD ' ') h
      simpa using this
    have hplus : c ≠ '+' := by intro hp; subst hp; exact absurd hc (by decide)
    have hminus : c ≠ '-' := by intro hp; subst hp; exact absurd hc (by decide)
    simp only [parseSigned, if_neg hplus, if_neg hminus]
    exact parseBody_none_of_current (c :: rest) false (by simpa using h)

theorem coerce_none_of_clean_current (e : Cell)
    (h : pyLower (_clean_value e) = "current") : _coerce_year e = none := by
  match e with
  | .na => exact absurd h (by decide)
  | .bool true => exact absurd h (by decide)
  | .bool false => exact absurd h (by decide)
  | .float .nan => exact absurd h (by decide)
  | .int n => exact absurd h (pyLower_pyNumStr_ne_current (.int n))
  | .float (.fin q) => exact absurd h (pyLower_pyNumStr_ne_current (.float (.fin q)))
  | .float .inf => exact absurd h (pyLower_pyNumStr_ne_current (.float .inf))
  | .float .ninf => exact absurd h (pyLower_pyNumStr_ne_current (.float .ninf))
  | .str s =>
    have hne : ¬(pyStrip s = "") := by
      intro h0
      rw [show _clean_value (.str s) = pyStrip s from rfl, h0] at h
      exact absurd h (by decide)
    simp only [_coerce_year, if_neg hne]
    have hdata : (trimChars s.data).map Char.toLower = ("current" : String).data :=
      congrArg String.data h
    rw [show parsePyFloat s = parseSigned (trimChars s.data) from rfl,
      parseSigned_none_of_current _ hdata]
    rfl

/-! ### Span lemmas -/

theorem span_swap (start end_ : Cell) (a b : PyNum)
    (hs : _coerce_year start = some a) (he : _coerce_year end_ = some b)
    (hgt : pyGt a b = true) :
    _span start end_ = pyNumStr b ++ " – " ++ pyNumStr a := by
  unfold _span
  rw [hs, he]
  simp only [hgt, if_true]
  unfold spanFormat
  rw [if_neg (fun hcon => pyNumStr_ne_empty b hcon.1),
    if_neg (pyLower_pyNumStr_ne_current a),
    if_pos ⟨pyNumStr_ne_empty b, pyNumStr_ne_empty a⟩]

theorem span_current (start end_ : Cell)
    (h : pyLower (_clean_value end_) = "current") :
    _span start end_ =
      if _clean_value start = "" then "current"
      else _clean_value start ++ " – current" := by
  have he := coerce_none_of_clean_current end_ h
  have hene : _clean_value end_ ≠ "" := by
    intro h0
    rw [h0] at h
    exact absurd h (by decide)
  unfold _span
  rw [he]
  rcases hs : _coerce_year start with _ | a <;>
    · simp only []
      unfold spanFormat
      rw [if_neg (fun hcon => hene hcon.2), if_pos h]

/-! ### Dict and list helper lemmas -/

theorem find_map_update (d : List (String × String)) (k v : String)
    (h : d.any (fun p => p.1 == k) = true) :
    (d.map (fun p => if p.1 == k then (k, v) else p)).find? (fun p => p.1 == k) =
      some (k, v) := by
  induction d with
  | nil => simp at h
  | cons p ds ih =>
    cases hp : (p.1 == k) with
    | true => simp [List.find?, hp]
    | false =>
      simp only [List.map_cons, hp, if_false, Bool.false_eq_true, List.find?, hp]
      exact ih (by simpa [List.any_cons, hp] using h)

theorem find_append_new (d : List (String × String)) (k v : String)
    (h : d.any (fun p => p.1 == k) = false) :
    (d ++ [(k, v)]).find? (fun p => p.1 == k) = some (k, v) := by
  induction d with
  | nil => simp [List.find?]
  | cons p ds ih =>
    simp only [List.any_cons, Bool.or_eq_false_iff] at h
    simp only [List.cons_append, List.find?, h.1]
    exact ih h.2

theorem dictGet_insert (d : List (String × String)) (k v : String) :
    dictGet (dictInsert d k v) k = some v := by
  unfold dictInsert dictGet
  by_cases h : d.any (fun p => p.1 == k) = true
  · rw [if_pos h, find_map_update d k v h]
    rfl
  · rw [if_neg h, find_append_new d k v (Bool.not_eq_true _ ▸ h)]
    rfl

theorem filterMap_middle_none {α β : Type} (f : α → Option β)
    (pre post : List α) (r : α) (h : f r = none) :
    (pre ++ r :: post).filterMap f = (pre ++ post).filterMap f := by
  rw [List.filterMap_append, List.filterMap_append]
  congr 1
  simp [List.filterMap_cons, h]

/-! ### Row-level lemmas for the entry parser -/

theorem entryOf_fields (cols : List String) (hv : String) (dcols : List String)
    (row : List Cell) (e : Entry) (h : entryOf cols hv dcols row = some e) :
    e.sec = _clean_value (cellAt row 0) ∧ pyLower e.sec ≠ hv ∧
      e.bullets = bulletsOf cols dcols row := by
  simp only [entryOf] at h
  split at h
  · exact absurd h (by simp)
  · rename_i hguard
    have he := Option.some.inj h
    subst he
    refine ⟨rfl, ?_, rfl⟩
    intro hlv
    exact hguard (Or.inr (Or.inl hlv))

theorem entryOf_headerRow (cols : List String) (dcols : List String)
    (r0 : List Cell) :
    entryOf cols (pyLower (_clean_value (cellAt r0 0))) dcols r0 = none := by
  simp [entryOf]

theorem bulletsOf_mem (cols : List String) (dcols : List String) (row : List Cell)
    (b : String) (hb : b ∈ bulletsOf cols dcols row) :
    ∃ c ∈ dcols, isFilterLabel c = false ∧ b = _clean_value (rowGet cols row c) ∧
      b ≠ "" ∧ pyLower b ≠ "true" ∧ pyLower b ≠ "false" := by
  unfold bulletsOf at hb
  obtain ⟨c, hc, hsome⟩ := List.mem_filterMap.mp hb
  refine ⟨c, hc, ?_⟩
  by_cases hf : isFilterLabel c = true
  · rw [if_pos hf] at hsome
    exact absurd hsome (by simp)
  · have hf' : isFilterLabel c = false := by
      cases hval : isFilterLabel c
      · rfl
      · exact absurd hval hf
    rw [if_neg hf] at hsome
    by_cases hv : _clean_value (rowGet cols row c) = ""
    · rw [if_pos hv] at hsome
      exact absurd hsome (by simp)
    · rw [if_neg hv] at hsome
      by_cases htf : pyLower (_clean_value (rowGet cols row c)) = "true" ∨
          pyLower (_clean_value (rowGet cols row c)) = "false"
      · rw [if_pos htf] at hsome
        exact absurd hsome (by simp)
      · rw [if_neg htf] at hsome
        have hb' := Option.some.inj hsome
        subst hb'
        push_neg at htf
        exact ⟨hf', rfl, hv, htf.1, htf.2⟩

/-! ### Description-column order characterization -/

theorem descFoldAux (l : List (Nat × String)) :
    ∀ acc : List String,
      (∀ p ∈ l, (p.2 ∈ acc ↔ isDescLabel p.2 = true)) →
      (l.map Prod.snd).Nodup →
      l.foldl
          (fun acc p => if 6 ≤ p.1 then (if p.2 ∈ acc then acc else acc ++ [p.2]) else acc)
          acc =
        acc ++ (l.filter (fun p => decide (6 ≤ p.1) && !isDescLabel p.2)).map Prod.snd := by
  induction l with
  | nil => intro acc _ _; simp
  | cons p l ih =>
    intro acc hmem hnd
    simp only [List.map_cons, List.nodup_cons] at hnd
    simp only [List.foldl_cons]
    by_cases h6 : 6 ≤ p.1
    · by_cases hin : p.2 ∈ acc
      · have hlab : isDescLabel p.2 = true := (hmem p (List.mem_cons_self _ _)).mp hin
        rw [if_pos h6, if_pos hin,
          ih acc (fun q hq => hmem q (List.mem_cons_of_mem _ hq)) hnd.2]
        congr 1
        rw [List.filter_cons_of_neg (by simp [h6, hlab])]
      · have hlab : isDescLabel p.2 = false := by
          cases hl : isDescLabel p.2
          · rfl
          · exact absurd ((hmem p (List.mem_cons_self _ _)).mpr hl) hin
        rw [if_pos h6, if_neg hin]
        have hmem' : ∀ q ∈ l, (q.2 ∈ acc ++ [p.2] ↔ isDescLabel q.2 = true) := by
          intro q hq
          have hqne : q.2 ≠ p.2 := by
            intro hqp
            exact hnd.1 (hqp ▸ List.mem_map_of_mem Prod.snd hq)
          rw [List.mem_append, List.mem_singleton]
          constructor
          · intro hor
            rcases hor with hor | hor
            · exact (hmem q (List.mem_cons_of_mem _ hq)).mp hor
            · exact absurd hor hqne
          · intro hl
            exact Or.inl ((hmem q (List.mem_cons_of_mem _ hq)).mpr hl)
        rw [ih (acc ++ [p.2]) hmem' hnd.2, List.append_assoc]
        congr 1
        rw [List.filter_cons_of_pos (by simp [h6, hlab]), List.map_cons,
          List.singleton_append]
    · rw [if_neg h6, ih acc (fun q hq => hmem q (List.mem_cons_of_mem _ hq)) hnd.2]
      congr 1
      rw [List.filter_cons_of_neg (by simp [h6])]

theorem descCols_eq (cols : List String) (h : cols.Nodup) :
    descCols cols =
      cols.filter isDescLabel ++
        (cols.enum.filter (fun p => decide (6 ≤ p.1) && !isDescLabel p.2)).map Prod.snd := by
  unfold descCols
  refine descFoldAux cols.enum (cols.filter isDescLabel) ?_ ?_
  · intro p hp
    constructor
    · intro hin
      exact (List.mem_filter.mp hin).2
    · intro hlab
      refine List.mem_filter.mpr ⟨?_, hlab⟩
      have hsnd := List.enum_map_snd cols
      exact hsnd ▸ List.mem_map_of_mem Prod.snd hp
  · rw [List.enum_map_snd]
    exact h

/-! ### Claim theorems -/

/-- C2: whenever both the start and the end input coerce to numeric years and
the start year is strictly greater, `_span` swaps the numeric pair and formats
the display strings of the swapped pair (the `str` forms of the two numbers,
lesser first); in particular on (2020, 2018) and on (2018, 2020) it returns
"2018 – 2020". -/
theorem C2_span_swap_format :
    (∀ (start end_ : Cell) (a b : PyNum),
        _coerce_year start = some a → _coerce_year end_ = some b →
        pyGt a b = true →
        _span start end_ = pyNumStr b ++ " – " ++ pyNumStr a) ∧
      _span (.int 2020) (.int 2018) = "2018 – 2020" ∧
      _span (.int 2018) (.int 2020) = "2018 – 2020" :=
  ⟨span_swap, by decide, by decide⟩

/-- Witness for C2 at start 2020, end 2018: both coerce, 2020 > 2018, and the
span is the swapped pair's display strings. -/
theorem C2_witness :
    _span (.int 2020) (.int 2018) = pyNumStr (.int 2018) ++ " – " ++ pyNumStr (.int 2020) :=
  C2_span_swap_format.1 (.int 2020) (.int 2018) (.int 2020) (.int 2018)
    (by decide) (by decide) (by decide)

/-- C5 counterexample: the claim's trichotomy (blank → no value, parseable as
a real number → that number, anything else → no value) fails on inputs that
`float(...)` accepts but that are not real numbers: the strings "inf" and
"nan" and a blank (NaN) cell all yield a non-finite float value instead of no
value. -/
theorem C5_counterexample :
    _coerce_year (.str "inf") = some (.float PyFloat.inf) ∧
      _coerce_year (.str "inf") ≠ none ∧
      PyFloat.inf.isFinite = false ∧
      _coerce_year (.str "nan") = some (.float PyFloat.nan) ∧
      _coerce_year Cell.na = some (.float PyFloat.nan) := by
  decide

/-- C5 amended: `_coerce_year` (YearCoercer) is total by construction and
models the never-raising contract of the source. On a string input it yields
no value when the stripped string is empty; whenever `float(...)` accepts the
string it yields that float value collapsed through `numOfFloat` — an integer
when the value is a whole real number, the float itself otherwise, including
the non-finite `inf`, `-inf` and `nan` for strings spelling those keywords —
and it yields no value exactly when `float(...)` raises. Concretely "2020"
gives the integer 2020, "2020.5" gives the float 4041/2 = 2020.5, "" and
"N/A" give no value, while "inf" and "nan" give the non-finite floats inf and
nan, as does a blank (NaN) cell. -/
theorem C5_coerce_year :
    (∀ s : String, pyStrip s = "" → _coerce_year (.str s) = none) ∧
      (∀ (s : String) (f : PyFloat), pyStrip s ≠ "" →
        parsePyFloat s = some f → _coerce_year (.str s) = some (numOfFloat f)) ∧
      (∀ (s : String) (q : ℚ), pyStrip s ≠ "" →
        parsePyFloat s = some (.fin q) →
        _coerce_year (.str s) =
          some (if q.den = 1 then PyNum.int q.num else PyNum.float (.fin q))) ∧
      (∀ (s : String) (f : PyFloat), pyStrip s ≠ "" →
        parsePyFloat s = some f → f.isFinite = false →
        _coerce_year (.str s) = some (.float f)) ∧
      (∀ s : String, pyStrip s ≠ "" → parsePyFloat s = none →
        _coerce_year (.str s) = none) ∧
      _coerce_year (.str "2020") = some (.int 2020) ∧
      _coerce_year (.str "2020.5") = some (.float (.fin (mkRat 4041 2))) ∧
      _coerce_year (.str "") = none ∧
      _coerce_year (.str "N/A") = none ∧
      _coerce_year (.str "inf") = some (.float PyFloat.inf) ∧
      _coerce_year (.str "nan") = some (.float PyFloat.nan) ∧
      _coerce_year Cell.na = some (.float PyFloat.nan) := by
  refine ⟨?_, ?_, ?_, ?_, ?_, by decide, by decide, by decide, by decide,
    by decide, by decide, by decide⟩
  · intro s h
    simp [_coerce_year, h]
  · intro s f hne hp
    simp [_coerce_year, hne, hp]
  · intro s q hne hp
    simp [_coerce_year, hne, hp, numOfFloat]
  · intro s f hne hp hnf
    have : numOfFloat f = .float f := by
      match f with
      | .fin q => simp [PyFloat.isFinite] at hnf
      | .nan => rfl
      | .inf => rfl
      | .ninf => rfl
    simp [_coerce_year, hne, hp, this]
  · intro s hne hp
    simp [_coerce_year, hne, hp]

/-- Witness for C5: the whitespace-only string " " yields no value, "7.25"
parses to 29/4 and is kept as a finite float, "Infinity" parses to the
non-finite inf and is kept as that float, and "abc" fails to parse and yields
no value. -/
theorem C5_witness :
    _coerce_year (.str " ") = none ∧
      _coerce_year (.str "7.25") =
        some (if (mkRat 29 4).den = 1 then PyNum.int (mkRat 29 4).num
          else PyNum.float (.fin (mkRat 29 4))) ∧
      _coerce_year (.str "Infinity") = some (.float PyFloat.inf) ∧
      _coerce_year (.str "abc") = none :=
  ⟨C5_coerce_year.1 " " (by decide),
    C5_coerce_year.2.2.1 "7.25" (mkRat 29 4) (by decide) (by decide),
    C5_coerce_year.2.2.2.1 "Infinity" PyFloat.inf (by decide) (by decide) (by decide),
    C5_coerce_year.2.2.2.2.1 "abc" (by decide) (by decide)⟩

/-- C6: for every start input and every end input whose cleaned string lowers
to "current", `_span` returns "start – current" (with the cleaned start and a
literal lowercase "current") when the cleaned start is non-empty and "current"
alone otherwise; the proof goes through `_coerce_year end = none`, so the
current detection indeed pre-empts the numeric swap — a "current" end is never
swapped. Concretely: ("2019", "current") gives "2019 – current", ("",
"current") gives "current", and the integer start 2019 with end "CURRENT" still
gives "2019 – current" even though the start coerces. -/
theorem C6_current_end :
    (∀ start end_ : Cell, pyLower (_clean_value end_) = "current" →
        _span start end_ =
          if _clean_value start = "" then "current"
          else _clean_value start ++ " – current") ∧
      _span (.str "2019") (.str "current") = "2019 – current" ∧
      _span (.str "") (.str "current") = "current" ∧
      _span (.int 2019) (.str "CURRENT") = "2019 – current" :=
  ⟨span_current, by decide, by decide, by decide⟩

/-- Witness for C6 at start "2019", end " Current " (whitespace and case
normalized by cleaning). -/
theorem C6_witness :
    _span (.str "2019") (.str " Current ") =
      if _clean_value (.str "2019") = "" then "current"
      else _clean_value (.str "2019") ++ " – current" :=
  C6_current_end.1 (.str "2019") (.str " Current ") (by decide)

/-- C4: rows whose cleaned, lowered first cell repeats the first data row's
cleaned, lowered first cell never yield an entry — every emitted entry's
lowered section differs from it — and in particular the first data row itself
is always filtered out: on a non-empty sheet the parse equals the parse of the
remaining rows under the captured header value. -/
theorem C4_first_row_header :
    (∀ (df : DataFrame) (e : Entry), e ∈ parse_entries df →
        ∀ (r0 : List Cell) (rest : List (List Cell)), df.rows = r0 :: rest →
        pyLower e.sec ≠ pyLower (_clean_value (cellAt r0 0))) ∧
      (∀ (cols : List String) (r0 : List Cell) (rest : List (List Cell)),
        parse_entries ⟨cols, r0 :: rest⟩ =
          rest.filterMap
            (entryOf cols (pyLower (_clean_value (cellAt r0 0))) (descCols cols))) := by
  constructor
  · intro df e he r0 rest hrows
    unfold parse_entries at he
    rw [hrows] at he
    simp only [] at he
    obtain ⟨row, _, hsome⟩ := List.mem_filterMap.mp he
    exact (entryOf_fields _ _ _ _ _ hsome).2.1
  · intro cols r0 rest
    simp only [parse_entries, List.filterMap_cons, entryOf_headerRow]

/-- Witness for C4: on a two-row sheet, the emitted entry's lowered section
differs from the first data row's lowered first-cell value. -/
theorem C4_witness :
    pyLower (Entry.mk "Acme" "" "" "" "" []).sec ≠
      pyLower (_clean_value (cellAt [Cell.str "Section", Cell.na] 0)) :=
  C4_first_row_header.1
    ⟨["Id of entry", "b", "c", "d", "e", "f"],
      [[Cell.str "Section", Cell.na], [Cell.str "Acme", Cell.na]]⟩
    (Entry.mk "Acme" "" "" "" "" []) (by decide)
    [Cell.str "Section", Cell.na] [[Cell.str "Acme", Cell.na]] rfl

/-- C10: a qualifying text-block row maps its cleaned key to its cleaned
value, and a row appended later with the same key overwrites the earlier value
(last-write-wins, no duplicate error — the parser is total); rows whose
cleaned key is empty or equals the header label are skipped wherever they
appear. -/
theorem C10_text_blocks :
    (∀ (cols : List String) (rows : List (List Cell)) (r : List Cell),
        _clean_value (cellAt r 0) ≠ "" →
        pyLower (_clean_value (cellAt r 0)) ≠ "id used for finding text block" →
        dictGet (parse_text_blocks ⟨cols, rows ++ [r]⟩) (_clean_value (cellAt r 0)) =
          some (_clean_value (cellAt r 1))) ∧
      (∀ (cols : List String) (pre post : List (List Cell)) (r : List Cell),
        (_clean_value (cellAt r 0) = "" ∨
            pyLower (_clean_value (cellAt r 0)) = "id used for finding text block") →
        parse_text_blocks ⟨cols, pre ++ r :: post⟩ = parse_text_blocks ⟨cols, pre ++ post⟩) ∧
      dictGet
          (parse_text_blocks ⟨["k", "v"],
            [[.str "summary", .str "old"], [.str "summary", .str "new"]]⟩) "summary" =
        some "new" := by
  refine ⟨?_, ?_, by decide⟩
  · intro cols rows r h1 h2
    show dictGet ((rows ++ [r]).foldl tbStep []) _ = _
    rw [List.foldl_append, List.foldl_cons, List.foldl_nil]
    simp only [tbStep]
    rw [if_pos ⟨h1, h2⟩]
    exact dictGet_insert _ _ _
  · intro cols pre post r h
    show (pre ++ r :: post).foldl tbStep [] = (pre ++ post).foldl tbStep []
    rw [List.foldl_append, List.foldl_append, List.foldl_cons]
    have hstep : tbStep (pre.foldl tbStep []) r = pre.foldl tbStep [] := by
      simp only [tbStep]
      rw [if_neg]
      intro hcon
      rcases h with h | h
      · exact hcon.1 h
      · exact hcon.2 h
    rw [hstep]

/-- Witness for C10: appending the row ("summary", "text") to a sheet makes
the lookup of "summary" return "text", and inserting a header-labelled row
mid-sheet leaves the parse unchanged. -/
theorem C10_witness :
    dictGet
        (parse_text_blocks ⟨["k", "v"],
          [[Cell.str "other", Cell.str "x"]] ++ [[Cell.str "summary", Cell.str "text"]]⟩)
        (_clean_value (cellAt [Cell.str "summary", Cell.str "text"] 0)) =
      some (_clean_value (cellAt [Cell.str "summary", Cell.str "text"] 1)) ∧
      parse_text_blocks ⟨["k", "v"],
          [[Cell.str "a", Cell.str "1"]] ++
            [Cell.str "Id used for finding text block", Cell.str "hdr"] ::
              [[Cell.str "b", Cell.str "2"]]⟩ =
        parse_text_blocks ⟨["k", "v"],
          [[Cell.str "a", Cell.str "1"]] ++ [[Cell.str "b", Cell.str "2"]]⟩ :=
  ⟨C10_text_blocks.1 ["k", "v"] [[Cell.str "other", Cell.str "x"]]
      [Cell.str "summary", Cell.str "text"] (by decide) (by decide),
    C10_text_blocks.2.1 ["k", "v"] [[Cell.str "a", Cell.str "1"]]
      [[Cell.str "b", Cell.str "2"]]
      [Cell.str "Id used for finding text block", Cell.str "hdr"]
      (Or.inr (by decide))⟩

theorem contactOf_none_id (r : List Cell)
    (h : _clean_value (cellAt r 0) = "" ∨
      pyLower (_clean_value (cellAt r 0)) = "id of contact section") :
    contactOf r = none := by
  simp only [contactOf]
  rw [if_pos h]

theorem contactOf_none_stray (r : List Cell)
    (h1 : pyLower (_clean_value (cellAt r 1)) = "icon")
    (h2 : pyLower (_clean_value (cellAt r 2)) = "contact") :
    contactOf r = none := by
  simp only [contactOf]
  by_cases hid : _clean_value (cellAt r 0) = "" ∨
      pyLower (_clean_value (cellAt r 0)) = "id of contact section"
  · rw [if_pos hid]
  · rw [if_neg hid, if_pos ⟨h1, h2⟩]

/-- C9: the contact parser skips every row whose cleaned id is empty or equals
"id of contact section" case-insensitively, skips a stray header-like row
(icon lowers to "icon", value lowers to "contact") wherever it appears — so a
sheet containing exactly one such stray row parses exactly as the sheet
without it — emits rows in source order (the parse is an append
homomorphism), and keeps a legitimate row with icon "Icon" and value
"someone@example.com". -/
theorem C9_contact_rows :
    (∀ (cols : List String) (pre post : List (List Cell)) (r : List Cell),
        (_clean_value (cellAt r 0) = "" ∨
            pyLower (_clean_value (cellAt r 0)) = "id of contact section") →
        parse_contact ⟨cols, pre ++ r :: post⟩ = parse_contact ⟨cols, pre ++ post⟩) ∧
      (∀ (cols : List String) (pre post : List (List Cell)) (r : List Cell),
        pyLower (_clean_value (cellAt r 1)) = "icon" →
        pyLower (_clean_value (cellAt r 2)) = "contact" →
        parse_contact ⟨cols, pre ++ r :: post⟩ = parse_contact ⟨cols, pre ++ post⟩) ∧
      (∀ (cols : List String) (rows1 rows2 : List (List Cell)),
        parse_contact ⟨cols, rows1 ++ rows2⟩ =
          parse_contact ⟨cols, rows1⟩ ++ parse_contact ⟨cols, rows2⟩) ∧
      parse_contact ⟨["id", "icon", "value"],
          [[.str "Id of contact section", .str "Icon", .str "Contact"],
            [.str "email", .str "Icon", .str "someone@example.com"],
            [.str "x", .str "ICON", .str "Contact"]]⟩ =
        [⟨"email", "Icon", "someone@example.com"⟩] := by
  refine ⟨?_, ?_, ?_, by decide⟩
  · intro cols pre post r h
    exact filterMap_middle_none contactOf pre post r (contactOf_none_id r h)
  · intro cols pre post r h1 h2
    exact filterMap_middle_none contactOf pre post r (contactOf_none_stray r h1 h2)
  · intro cols rows1 rows2
    show (rows1 ++ rows2).filterMap contactOf = _
    rw [List.filterMap_append]
    rfl

/-- Witness for C9: a stray header-like row inserted mid-sheet leaves the
parse unchanged, and an empty-id row is likewise skipped. -/
theorem C9_witness :
    parse_contact ⟨["id", "icon", "value"],
        [[Cell.str "email", Cell.str "Icon", Cell.str "a@b.c"]] ++
          [Cell.str "x", Cell.str "Icon", Cell.str "Contact"] ::
            [[Cell.str "web", Cell.str "Globe", Cell.str "w.example"]]⟩ =
      parse_contact ⟨["id", "icon", "value"],
        [[Cell.str "email", Cell.str "Icon", Cell.str "a@b.c"]] ++
          [[Cell.str "web", Cell.str "Globe", Cell.str "w.example"]]⟩ ∧
      parse_contact ⟨["id", "icon", "value"],
          ([] : List (List Cell)) ++
            [Cell.str " ", Cell.str "Icon", Cell.str "a@b.c"] ::
              [[Cell.str "web", Cell.str "Globe", Cell.str "w.example"]]⟩ =
        parse_contact ⟨["id", "icon", "value"],
          ([] : List (List Cell)) ++ [[Cell.str "web", Cell.str "Globe", Cell.str "w.example"]]⟩ :=
  ⟨C9_contact_rows.2.1 ["id", "icon", "value"]
      [[Cell.str "email", Cell.str "Icon", Cell.str "a@b.c"]]
      [[Cell.str "web", Cell.str "Globe", Cell.str "w.example"]]
      [Cell.str "x", Cell.str "Icon", Cell.str "Contact"] (by decide) (by decide),
    C9_contact_rows.1 ["id", "icon", "value"] []
      [[Cell.str "web", Cell.str "Globe", Cell.str "w.example"]]
      [Cell.str " ", Cell.str "Icon", Cell.str "a@b.c"] (Or.inl (by decide))⟩

theorem joinComma_mem_split (l : List String) (s : String) (h : s ∈ l) :
    ∃ p q : List Char, (joinComma l).data = p ++ s.data ++ q := by
  induction l with
  | nil => cases h
  | cons a rest ih =>
    rcases List.mem_cons.mp h with h1 | h1
    · subst h1
      cases rest with
      | nil => exact ⟨[], [], by simp [joinComma]⟩
      | cons b r2 =>
        refine ⟨[], (", " ++ joinComma (b :: r2)).data, ?_⟩
        rw [show joinComma (s :: b :: r2) = s ++ ", " ++ joinComma (b :: r2) from rfl,
          String.data_append, String.data_append, String.data_append]
        simp [List.append_assoc]
    · cases rest with
      | nil => cases h1
      | cons b r2 =>
        obtain ⟨p, q, hp⟩ := ih h1
        refine ⟨(a ++ ", ").data ++ p, q, ?_⟩
        rw [show joinComma (a :: b :: r2) = a ++ ", " ++ joinComma (b :: r2) from rfl,
          String.data_append, hp]
        simp [List.append_assoc]

/-- C8: whenever one or more required sheets are absent, `build_payload` fails
with a single error message "Missing sheets: ..." listing the comma-joined
missing names — every missing sheet name occurs inside that one message — and
a workbook missing both `computer_science_skills` and `contact_info` produces
the error naming both. -/
theorem C8_missing_sheets :
    (∀ (wb : Workbook) (now name : String), missingOf wb ≠ [] →
        build_payload wb now name =
          .error ("Missing sheets: " ++ joinComma (missingOf wb))) ∧
      (∀ (wb : Workbook) (s : String), s ∈ missingOf wb →
        ∃ p q : List Char,
          ("Missing sheets: " ++ joinComma (missingOf wb)).data = p ++ s.data ++ q) ∧
      build_payload
          [("text_blocks", ⟨[], []⟩), ("entries", ⟨[], []⟩), ("languages", ⟨[], []⟩)]
          "t" "w" =
        .error "Missing sheets: computer_science_skills, contact_info" := by
  refine ⟨?_, ?_, rfl⟩
  · intro wb now name h
    unfold build_payload
    rcases hm : missingOf wb with _ | ⟨a, l⟩
    · exact absurd hm h
    · rfl
  · intro wb s h
    obtain ⟨p, q, hp⟩ := joinComma_mem_split (missingOf wb) s h
    refine ⟨("Missing sheets: " : String).data ++ p, q, ?_⟩
    rw [String.data_append, hp]
    simp [List.append_assoc]

/-- Witness for C8: a workbook with only the `entries` sheet fails with the
message naming the four missing sheets, and `contact_info` occurs inside the
message. -/
theorem C8_witness :
    build_payload [("entries", ⟨[], []⟩)] "t" "w" =
        .error ("Missing sheets: " ++ joinComma (missingOf [("entries", ⟨[], []⟩)])) ∧
      ∃ p q : List Char,
        ("Missing sheets: " ++
            joinComma (missingOf [("entries", ⟨[], []⟩)])).data =
          p ++ ("contact_info" : String).data ++ q :=
  ⟨C8_missing_sheets.1 [("entries", ⟨[], []⟩)] "t" "w" (by decide),
    C8_missing_sheets.2.1 [("entries", ⟨[], []⟩)] "contact_info" (by decide)⟩

theorem ratedOf_none (r : List Cell) (h : pyFloatOfCell (cellAt r 1) = none) :
    ratedOf r = none := by
  simp only [ratedOf]
  split
  · rfl
  · rw [h]

theorem ratedOf_some (r : List Cell) (it : RatedItem) (h : ratedOf r = some it) :
    it.name = _clean_value (cellAt r 0) ∧
      pyFloatOfCell (cellAt r 1) = some it.level := by
  simp only [ratedOf] at h
  split at h
  · exact absurd h (by simp)
  · rcases hf : pyFloatOfCell (cellAt r 1) with _ | lv
    · rw [hf] at h
      exact absurd h (by simp)
    · rw [hf] at h
      have := Option.some.inj h
      subst this
      exact ⟨rfl, rfl⟩

/-- C3 counterexample: a skill row whose level cell is blank (pandas NaN) is
not dropped — `float(nan)` succeeds — and is emitted with level NaN, which is
not a finite numeric value, refuting "every level in every emitted RatedItem
is a finite numeric value". -/
theorem C3_counterexample :
    parse_skills ⟨["Skill", "Level"], [[.str "Python", Cell.na]]⟩ =
        [⟨"Python", PyFloat.nan⟩] ∧
      (parse_skills ⟨["Skill", "Level"], [[.str "Python", Cell.na]]⟩).all
          (fun it => it.level.isFinite) = false := by
  decide

/-- C3 amended: both parsers drop entirely any row whose level cell makes
`float(...)` raise (no partial record, no zero default), and every emitted
level is the numeric `float(...)` result of its row's level cell — which can
be NaN for a blank cell, so it is not necessarily finite; a row with level
"n/a" is absent from the output while a row with level "4.5" is kept with
level 9/2 = 4.5. -/
theorem C3_level_drop :
    (∀ (cols : List String) (pre post : List (List Cell)) (r : List Cell),
        pyFloatOfCell (cellAt r 1) = none →
        parse_skills ⟨cols, pre ++ r :: post⟩ = parse_skills ⟨cols, pre ++ post⟩ ∧
          parse_languages ⟨cols, pre ++ r :: post⟩ = parse_languages ⟨cols, pre ++ post⟩) ∧
      (∀ (df : DataFrame) (it : RatedItem), it ∈ parse_skills df →
        ∃ row ∈ df.rows,
          it.name = _clean_value (cellAt row 0) ∧
            pyFloatOfCell (cellAt row 1) = some it.level) ∧
      (∀ (df : DataFrame) (it : RatedItem), it ∈ parse_languages df →
        ∃ row ∈ df.rows,
          it.name = _clean_value (cellAt row 0) ∧
            pyFloatOfCell (cellAt row 1) = some it.level) ∧
      parse_skills ⟨["Skill", "Level"], [[.str "A", .str "n/a"], [.str "B", .str "4.5"]]⟩ =
        [⟨"B", .fin (mkRat 9 2)⟩] ∧
      parse_languages ⟨["Name of language", "Level"],
          [[.str "Name of language", .str "Level"], [.str "French", .int 5]]⟩ =
        [⟨"French", .fin 5⟩] := by
  refine ⟨?_, ?_, ?_, by decide, by decide⟩
  · intro cols pre post r h
    exact ⟨filterMap_middle_none ratedOf pre post r (ratedOf_none r h),
      filterMap_middle_none ratedOf pre post r (ratedOf_none r h)⟩
  · intro df it hit
    obtain ⟨row, hrow, hsome⟩ := List.mem_filterMap.mp hit
    exact ⟨row, hrow, ratedOf_some row it hsome⟩
  · intro df it hit
    obtain ⟨row, hrow, hsome⟩ := List.mem_filterMap.mp hit
    exact ⟨row, hrow, ratedOf_some row it hsome⟩

/-- Witness for C3: removing an unparseable-level row ("n/a") leaves both
parses of the surrounding sheet unchanged. -/
theorem C3_witness :
    parse_skills ⟨["Skill", "Level"],
        [[Cell.str "A", Cell.int 3]] ++ [Cell.str "X", Cell.str "n/a"] ::
          [[Cell.str "B", Cell.str "4.5"]]⟩ =
      parse_skills ⟨["Skill", "Level"],
        [[Cell.str "A", Cell.int 3]] ++ [[Cell.str "B", Cell.str "4.5"]]⟩ ∧
      parse_languages ⟨["Skill", "Level"],
          [[Cell.str "A", Cell.int 3]] ++ [Cell.str "X", Cell.str "n/a"] ::
            [[Cell.str "B", Cell.str "4.5"]]⟩ =
        parse_languages ⟨["Skill", "Level"],
          [[Cell.str "A", Cell.int 3]] ++ [[Cell.str "B", Cell.str "4.5"]]⟩ :=
  C3_level_drop.1 ["Skill", "Level"] [[Cell.str "A", Cell.int 3]]
    [[Cell.str "B", Cell.str "4.5"]] [Cell.str "X", Cell.str "n/a"] (by decide)

/-- C1 counterexample: with a sheet whose index-6 column is "Unnamed: 6" and
whose index-7 column is labelled "Second description", the parser emits the
index-7 cell before the index-6 cell (description-labelled columns are
collected first, positional columns appended after), while source-sheet column
order would list the index-6 cell first — refuting "in the order their columns
appear in the source sheet". -/
theorem C1_counterexample :
    (parse_entries ⟨["Id of entry", "Main title of the entry",
          "Location the entry occured", "Primary institution affiliation for entry",
          "Start date of entry (year)",
          "End year of entry. Set to \"current\" if entry is still ongoing.",
          "Unnamed: 6", "Second description"],
        [[.str "Section", .na, .na, .na, .na, .na, .na, .na],
          [.str "Acme", .str "Engineer", .str "Paris", .str "Acme Corp", .int 2019,
            .str "current", .str "Bullet One", .str "Bullet Two"]]⟩).map Entry.bullets =
      [["Bullet Two", "Bullet One"]] ∧
      bulletsOf ["Id of entry", "Main title of the entry",
          "Location the entry occured", "Primary institution affiliation for entry",
          "Start date of entry (year)",
          "End year of entry. Set to \"current\" if entry is still ongoing.",
          "Unnamed: 6", "Second description"]
        (descColsSheetOrder ["Id of entry", "Main title of the entry",
          "Location the entry occured", "Primary institution affiliation for entry",
          "Start date of entry (year)",
          "End year of entry. Set to \"current\" if entry is still ongoing.",
          "Unnamed: 6", "Second description"])
        [.str "Acme", .str "Engineer", .str "Paris", .str "Acme Corp", .int 2019,
          .str "current", .str "Bullet One", .str "Bullet Two"] =
        ["Bullet One", "Bullet Two"] ∧
      (["Bullet Two", "Bullet One"] : List String) ≠ ["Bullet One", "Bullet Two"] := by
  decide

/-- C1 amended: the bullets of every emitted entry list the cleaned,
non-skipped description-cell values of its source row in the order the parser
collects description columns — description-labelled columns first in sheet
order, then the remaining columns of index at least 6 in sheet order (for
distinctly labelled sheets), not plain source-sheet column order. -/
theorem C1_bullets_order :
    (∀ cols : List String, cols.Nodup →
        descCols cols =
          cols.filter isDescLabel ++
            (cols.enum.filter
                (fun p => decide (6 ≤ p.1) && !isDescLabel p.2)).map Prod.snd) ∧
      (∀ (df : DataFrame) (e : Entry), e ∈ parse_entries df →
        ∃ row ∈ df.rows,
          e.bullets = bulletsOf df.columns (descCols df.columns) row) := by
  constructor
  · exact descCols_eq
  · intro df e he
    unfold parse_entries at he
    rcases hrows : df.rows with _ | ⟨r0, rest⟩
    · rw [hrows] at he
      simp at he
    · rw [hrows] at he
      simp only [] at he
      obtain ⟨row, hrow, hsome⟩ := List.mem_filterMap.mp he
      exact ⟨row, hrow, (entryOf_fields _ _ _ _ _ hsome).2.2⟩

/-- Witness for C1: the classification order on the counterexample's columns
(which are distinct) and the bullets of the emitted entry of that sheet. -/
theorem C1_witness :
    descCols ["Id of entry", "Main title of the entry",
        "Location the entry occured", "Primary institution affiliation for entry",
        "Start date of entry (year)",
        "End year of entry. Set to \"current\" if entry is still ongoing.",
        "Unnamed: 6", "Second description"] =
      ["Id of entry", "Main title of the entry",
          "Location the entry occured", "Primary institution affiliation for entry",
          "Start date of entry (year)",
          "End year of entry. Set to \"current\" if entry is still ongoing.",
          "Unnamed: 6", "Second description"].filter isDescLabel ++
        (["Id of entry", "Main title of the entry",
            "Location the entry occured", "Primary institution affiliation for entry",
            "Start date of entry (year)",
            "End year of entry. Set to \"current\" if entry is still ongoing.",
            "Unnamed: 6", "Second description"].enum.filter
            (fun p => decide (6 ≤ p.1) && !isDescLabel p.2)).map Prod.snd :=
  C1_bullets_order.1 ["Id of entry", "Main title of the entry",
    "Location the entry occured", "Primary institution affiliation for entry",
    "Start date of entry (year)",
    "End year of entry. Set to \"current\" if entry is still ongoing.",
    "Unnamed: 6", "Second description"] (by decide)

/-- C7: every emitted bullet is non-empty, is not the literal boolean "true"
or "false" (case-insensitive), and is the cleaned cell of a description column
whose label is not a filter/helper label (`filter`, `resume`, `in_resume`);
concretely a row whose description cells are "Did X", a boolean filter cell
and the string "True" yields bullets ["Did X"]. -/
theorem C7_bullet_filters :
    (∀ (df : DataFrame) (e : Entry) (b : String), e ∈ parse_entries df →
        b ∈ e.bullets →
        b ≠ "" ∧ pyLower b ≠ "true" ∧ pyLower b ≠ "false" ∧
          ∃ row ∈ df.rows, ∃ c ∈ descCols df.columns,
            isFilterLabel c = false ∧ b = _clean_value (rowGet df.columns row c)) ∧
      parse_entries ⟨["Id of entry", "Main title of the entry",
          "Location the entry occured", "Primary institution affiliation for entry",
          "Start date of entry (year)",
          "End year of entry. Set to \"current\" if entry is still ongoing.",
          "Description of entry", "Filter in_resume", "Unnamed: 8"],
        [[.str "Section", .na, .na, .na, .na, .na, .na, .na, .na],
          [.str "Acme", .str "Engineer", .str "", .str "", .int 2020, .int 2021,
            .str "Did X", .bool true, .str "True"]]⟩ =
        [⟨"Acme", "Engineer", "", "", "2020 – 2021", ["Did X"]⟩] := by
  constructor
  · intro df e b he hb
    unfold parse_entries at he
    rcases hrows : df.rows with _ | ⟨r0, rest⟩
    · rw [hrows] at he
      simp at he
    · rw [hrows] at he
      simp only [] at he
      obtain ⟨row, hrow, hsome⟩ := List.mem_filterMap.mp he
      rw [(entryOf_fields _ _ _ _ _ hsome).2.2] at hb
      obtain ⟨c, hc, hfl, hbc, hne, ht, hf2⟩ := bulletsOf_mem _ _ _ _ hb
      exact ⟨hne, ht, hf2, row, hrow, c, hc, hfl, hbc⟩
  · decide

/-- Witness for C7: the bullet "Did X" of the concrete sheet above is
non-empty, not a boolean literal, and comes from a non-filter description
column. -/
theorem C7_witness :
    ("Did X" : String) ≠ "" ∧ pyLower "Did X" ≠ "true" ∧ pyLower "Did X" ≠ "false" ∧
      ∃ row ∈ (⟨["Id of entry", "Main title of the entry",
          "Location the entry occured", "Primary institution affiliation for entry",
          "Start date of entry (year)",
          "End year of entry. Set to \"current\" if entry is still ongoing.",
          "Description of entry", "Filter in_resume", "Unnamed: 8"],
        [[.str "Section", .na, .na, .na, .na, .na, .na, .na, .na],
          [.str "Acme", .str "Engineer", .str "", .str "", .int 2020, .int 2021,
            .str "Did X", .bool true, .str "True"]]⟩ : DataFrame).rows,
        ∃ c ∈ descCols ["Id of entry", "Main title of the entry",
          "Location the entry occured", "Primary institution affiliation for entry",
          "Start date of entry (year)",
          "End year of entry. Set to \"current\" if entry is still ongoing.",
          "Description of entry", "Filter in_resume", "Unnamed: 8"],
          isFilterLabel c = false ∧
            "Did X" = _clean_value (rowGet ["Id of entry", "Main title of the entry",
              "Location the entry occured", "Primary institution affiliation for entry",
              "Start date of entry (year)",
              "End year of entry. Set to \"current\" if entry is still ongoing.",
              "Description of entry", "Filter in_resume", "Unnamed: 8"] row c) :=
  C7_bullet_filters.1
    ⟨["Id of entry", "Main title of the entry",
        "Location the entry occured", "Primary institution affiliation for entry",
        "Start date of entry (year)",
        "End year of entry. Set to \"current\" if entry is still ongoing.",
        "Description of entry", "Filter in_resume", "Unnamed: 8"],
      [[.str "Section", .na, .na, .na, .na, .na, .na, .na, .na],
        [.str "Acme", .str "Engineer", .str "", .str "", .int 2020, .int 2021,
          .str "Did X", .bool true, .str "True"]]⟩
    ⟨"Acme", "Engineer", "", "", "2020 – 2021", ["Did X"]⟩ "Did X"
    (by decide) (by decide)
